import Mathlib

/-!
# Verification of the DuckDB type-string parser (`ibis.backends.duckdb.datatypes.parse`)

The repository ships only the test suite for the parser
(`src/ibis/backends/duckdb/tests/test_datatypes.py`); the parser module itself
is not among the visible sources.  Following the specification, the parser is
modelled here as a tokenizer plus a fuel-indexed recursive-descent parser over
the token stream.  All definitions are executable and reduce in the kernel, so
concrete parses are settled by `rfl`/`decide`.
-/

namespace DuckDBTypes

/-- Modelled from the spec: the canonical type descriptors of §3 (the data
model of `ibis.expr.datatypes` as visible through the test file) — leaf
scalars, parameterized decimal and timestamp, and the array/map/struct
composites.  Struct fields are an ordered sequence, so equality of structs is
order-sensitive. -/
inductive DataType where
  | boolean
  | int8
  | int16
  | int32
  | int64
  | uint8
  | uint16
  | uint32
  | uint64
  | float32
  | float64
  | binary
  | string
  | date
  | time
  | interval
  | uuid
  | json
  | decimal (precision : Nat) (scale : Nat)
  | timestamp (timezone : Option String) (scale : Option Nat)
  | array (element : DataType)
  | map (key : DataType) (value : DataType)
  | struct (fields : List (String × DataType))

/-- Modelled from the spec: the discriminated `ParseError` kinds of §7. -/
inductive ParseError where
  | lexError
  | unknownTypeError
  | unexpectedTokenError
  | invalidNumberError
  | invalidDecimalParamsError
  | duplicateFieldError
  | trailingInputError
  deriving DecidableEq, Repr

/-- Modelled from the spec: the token alphabet of the tokenizer (§4.1). -/
inductive Token where
  | ident (s : String)
  | number (s : String)
  | lparen
  | rparen
  | comma
  | lbracket
  | rbracket
  deriving DecidableEq, Repr

/-- A word character: letter, digit or underscore (§4.1). -/
def isWordChar (c : Char) : Bool :=
  (('A' ≤ c && c ≤ 'Z') || ('a' ≤ c && c ≤ 'z') || ('0' ≤ c && c ≤ '9') || c = '_')

/-- A decimal digit. -/
def isDigitChar (c : Char) : Bool :=
  ('0' ≤ c && c ≤ '9')

/-- Characters the tokenizer accepts besides word characters and space. -/
def isPunctChar (c : Char) : Bool :=
  (c = '(' || c = ')' || c = ',' || c = '[' || c = ']')

/-- Uppercase a single ASCII character. -/
def upChar (c : Char) : Char :=
  if 'a' ≤ c && c ≤ 'z' then Char.ofNat (c.toNat - 32) else c

/-- Uppercase a string, ASCII-wise (keyword comparisons are case-insensitive,
§4.1/§4.3 step 1). -/
def upper (s : String) : String :=
  ⟨s.data.map upChar⟩

/-- Modelled from the spec: the tokenizer of §4.1, fuel-indexed so that it is
structurally recursive.  Skips spaces, emits punctuation tokens, and lexes
maximal word-character runs as `number` (leading digit) or `ident` tokens;
any other character is a `LexError`. -/
def tokenize : Nat → List Char → Except ParseError (List Token)
  | 0, _ => .error .lexError
  | _ + 1, [] => .ok []
  | fuel + 1, c :: cs =>
    if c = ' ' then tokenize fuel cs
    else if c = '(' then (tokenize fuel cs).map (Token.lparen :: ·)
    else if c = ')' then (tokenize fuel cs).map (Token.rparen :: ·)
    else if c = ',' then (tokenize fuel cs).map (Token.comma :: ·)
    else if c = '[' then (tokenize fuel cs).map (Token.lbracket :: ·)
    else if c = ']' then (tokenize fuel cs).map (Token.rbracket :: ·)
    else if isWordChar c then
      let run : List Char := c :: cs.takeWhile isWordChar
      let tok : Token := if isDigitChar c then .number ⟨run⟩ else .ident ⟨run⟩
      (tokenize fuel (cs.dropWhile isWordChar)).map (tok :: ·)
    else .error .lexError

/-- Tokenize a whole character list, supplying enough fuel. -/
def tokenizeAll (cs : List Char) : Except ParseError (List Token) :=
  tokenize (cs.length + 1) cs

/-- Value of a digit string. -/
def digitsToNat (cs : List Char) : Nat :=
  cs.foldl (fun n c => n * 10 + (c.toNat - 48)) 0

/-- Modelled from the spec: the `NUMBER` production (§4.3) — a number token
whose text is all digits; non-digit content is `InvalidNumberError`, any
other token where a number is required is a grammar violation. -/
def parseNumber (t : Token) : Except ParseError Nat :=
  match t with
  | .number s => if s.data.all isDigitChar then .ok (digitsToNat s.data) else .error .invalidNumberError
  | _ => .error .unexpectedTokenError

/-- Modelled from the spec: the parenthesized `( NUMBER , NUMBER )`
precision/scale parameters of `DECIMAL`/`NUMERIC` (§4.3 step 4), entered
after the opening parenthesis has been consumed; requires precision ≥ scale,
else `InvalidDecimalParamsError`. -/
def parseDecimalParams (ts : List Token) : Except ParseError (DataType × List Token) :=
  match ts with
  | t1 :: .comma :: t2 :: .rparen :: rest =>
    match parseNumber t1 with
    | .error e => .error e
    | .ok p =>
      match parseNumber t2 with
      | .error e => .error e
      | .ok s =>
        if s ≤ p then .ok (.decimal p s, rest) else .error .invalidDecimalParamsError
  | _ => .error .unexpectedTokenError

/-- Modelled from the spec: the static alias table of §4.2, exact match on
the uppercased identifier. -/
def resolveAlias (kw : String) : Option DataType :=
  match kw with
  | "BIGINT" | "INT8" | "LONG" => some .int64
  | "INTEGER" | "INT4" | "INT" | "SIGNED" => some .int32
  | "SMALLINT" | "INT2" | "SHORT" => some .int16
  | "TINYINT" | "INT1" => some .int8
  | "UBIGINT" => some .uint64
  | "UINTEGER" => some .uint32
  | "USMALLINT" => some .uint16
  | "UTINYINT" => some .uint8
  | "BOOLEAN" | "BOOL" | "LOGICAL" => some .boolean
  | "BLOB" | "BYTEA" | "BINARY" | "VARBINARY" => some .binary
  | "DATE" => some .date
  | "DOUBLE" | "FLOAT8" => some .float64
  | "REAL" | "FLOAT4" | "FLOAT" => some .float32
  | "TIME" => some .time
  | "INTERVAL" => some .interval
  | "UUID" => some .uuid
  | "VARCHAR" | "CHAR" | "BPCHAR" | "TEXT" | "STRING" => some .string
  | "JSON" => some .json
  | "TIMESTAMP" | "DATETIME" | "TIMESTAMP_TZ" => some (.timestamp (some "UTC") none)
  | "TIMESTAMP_SEC" | "TIMESTAMP_S" => some (.timestamp (some "UTC") (some 0))
  | "TIMESTAMP_MS" => some (.timestamp (some "UTC") (some 3))
  | "TIMESTAMP_US" => some (.timestamp (some "UTC") (some 6))
  | "TIMESTAMP_NS" => some (.timestamp (some "UTC") (some 9))
  | _ => none

/-- Modelled from the spec: step 6 of §4.3 — after the base type, consume
zero or more `[` `]` suffix pairs, each wrapping the previous type in an
array, left to right. -/
def parseArraySuffixes (t : DataType) (ts : List Token) : DataType × List Token :=
  match ts with
  | .lbracket :: .rbracket :: rest => parseArraySuffixes (.array t) rest
  | rest => (t, rest)

mutual

/-- Modelled from the spec: the recursive-descent `type` production of §4.3
(fuel-indexed; fuel larger than the token count never runs out).  Reads one
identifier, uppercases it for dispatch, parses the struct/map/decimal
productions or resolves a scalar alias, then consumes array suffixes. -/
def parseType : Nat → List Token → Except ParseError (DataType × List Token)
  | 0, _ => .error .unexpectedTokenError
  | fuel + 1, ts =>
    match ts with
    | .ident w :: rest =>
      let kw := upper w
      if kw = "STRUCT" then
        match rest with
        | .lparen :: r1 =>
          match parseStructFields fuel [] r1 with
          | .error e => .error e
          | .ok (fs, r2) => .ok (parseArraySuffixes (.struct fs) r2)
        | _ => .error .unexpectedTokenError
      else if kw = "MAP" then
        match rest with
        | .lparen :: r1 =>
          match parseType fuel r1 with
          | .error e => .error e
          | .ok (k, r2) =>
            match r2 with
            | .comma :: r3 =>
              match parseType fuel r3 with
              | .error e => .error e
              | .ok (v, r4) =>
                match r4 with
                | .rparen :: r5 => .ok (parseArraySuffixes (.map k v) r5)
                | _ => .error .unexpectedTokenError
            | _ => .error .unexpectedTokenError
        | _ => .error .unexpectedTokenError
      else if kw = "DECIMAL" || kw = "NUMERIC" then
        match rest with
        | .lparen :: r1 =>
          match parseDecimalParams r1 with
          | .error e => .error e
          | .ok (d, r2) => .ok (parseArraySuffixes d r2)
        | _ => .ok (parseArraySuffixes (.decimal 18 3) rest)
      else
        match resolveAlias kw with
        | some t => .ok (parseArraySuffixes t rest)
        | none => .error .unknownTypeError
    | _ => .error .unexpectedTokenError

/-- Modelled from the spec: the struct field list of §4.3 step 2 — repeatedly
parse `identifier type` fields separated by commas until `)`, accumulating an
ordered field list and failing with `DuplicateFieldError` when a name repeats. -/
def parseStructFields : Nat → List (String × DataType) → List Token →
    Except ParseError (List (String × DataType) × List Token)
  | 0, _, _ => .error .unexpectedTokenError
  | fuel + 1, acc, ts =>
    match ts with
    | .ident name :: ts2 =>
      match parseType fuel ts2 with
      | .error e => .error e
      | .ok (t, ts3) =>
        if acc.any (fun p => p.1 == name) then .error .duplicateFieldError
        else
          match ts3 with
          | .comma :: ts4 => parseStructFields fuel (acc ++ [(name, t)]) ts4
          | .rparen :: ts4 => .ok (acc ++ [(name, t)], ts4)
          | _ => .error .unexpectedTokenError
    | _ => .error .unexpectedTokenError

end

/-- Parse a token stream to completion: a full `type` production followed by
end of input; unconsumed tokens are `TrailingInputError` (§4.3 step 7). -/
def parseTokens (toks : List Token) : Except ParseError DataType :=
  match parseType (toks.length + 1) toks with
  | .error e => .error e
  | .ok (t, []) => .ok t
  | .ok (_, _ :: _) => .error .trailingInputError

/-- Parse a character list: tokenize, then run the recursive-descent parser. -/
def parseChars (cs : List Char) : Except ParseError DataType :=
  match tokenizeAll cs with
  | .error e => .error e
  | .ok toks => parseTokens toks

/-- Modelled from the spec: the public entry point
`parse(s: String) -> Result<CanonicalType, ParseError>` (§6) of the missing
module `ibis/backends/duckdb/datatypes.py`. -/
def parse (s : String) : Except ParseError DataType :=
  parseChars s.data

/-- Does a character list end with a word character?  A space inserted at a
position that is not strictly inside a word run — i.e. not between a word
character and a word character — is insignificant whitespace. -/
def endsWordC (a : List Char) : Bool :=
  match a.getLast? with
  | some c => isWordChar c
  | none => false

/-- Does a character list start with a word character? -/
def startsWordC (b : List Char) : Bool :=
  match b with
  | c :: _ => isWordChar c
  | [] => false

/-- Membership of a name in a list of names, by boolean equality. -/
def nameIn (n : String) : List String → Bool
  | [] => false
  | m :: rest => (m == n) || nameIn n rest

/-- No name occurs twice. -/
def namesNodup : List String → Bool
  | [] => true
  | n :: rest => (!(nameIn n rest)) && namesNodup rest

mutual

/-- Every `decimal` occurring anywhere in a type has scale ≤ precision. -/
def decOk : DataType → Bool
  | .decimal p s => decide (s ≤ p)
  | .array t => decOk t
  | .map k v => decOk k && decOk v
  | .struct fs => decOkFields fs
  | _ => true

/-- `decOk` on every field type of a struct field list. -/
def decOkFields : List (String × DataType) → Bool
  | [] => true
  | (_, t) :: rest => decOk t && decOkFields rest

end

mutual

/-- Every `struct` occurring anywhere in a type has pairwise-distinct field
names. -/
def structsOk : DataType → Bool
  | .array t => structsOk t
  | .map k v => structsOk k && structsOk v
  | .struct fs => namesNodup (fs.map Prod.fst) && structsOkFields fs
  | _ => true

/-- `structsOk` on every field type of a struct field list. -/
def structsOkFields : List (String × DataType) → Bool
  | [] => true
  | (_, t) :: rest => structsOk t && structsOkFields rest

end

theorem resolveAlias_wf (kw : String) (t : DataType) (h : resolveAlias kw = some t) :
    decOk t = true ∧ structsOk t = true := by
  unfold resolveAlias at h
  repeat' split at h
  all_goals first
    | exact Option.noConfusion h
    | (injection h with h; subst h; exact ⟨rfl, rfl⟩)

theorem parseDecimalParams_wf (ts : List Token) (d : DataType) (rest : List Token)
    (h : parseDecimalParams ts = .ok (d, rest)) :
    decOk d = true ∧ structsOk d = true := by
  unfold parseDecimalParams at h
  split at h
  · split at h
    · exact Except.noConfusion h
    · split at h
      · exact Except.noConfusion h
      · split at h
        case isTrue hle =>
          injection h with h
          injection h with h1 h2
          subst h1
          exact ⟨by simpa [decOk] using hle, rfl⟩
        case isFalse hle => exact Except.noConfusion h
  · exact Except.noConfusion h

theorem parseArraySuffixes_pres (P : DataType → Bool)
    (hP : ∀ u, P u = true → P (.array u) = true) :
    ∀ (n : Nat) (ts : List Token), ts.length ≤ n →
      ∀ t, P t = true → P (parseArraySuffixes t ts).1 = true := by
  intro n
  induction n with
  | zero =>
    intro ts hle t h
    have hts : ts = [] := List.length_eq_zero.mp (Nat.le_zero.mp hle)
    subst hts
    simpa [parseArraySuffixes] using h
  | succ n ih =>
    intro ts hle t h
    cases ts with
    | nil => simpa [parseArraySuffixes] using h
    | cons x xs =>
      cases xs with
      | nil => cases x <;> simpa [parseArraySuffixes] using h
      | cons y rest =>
        cases x <;> cases y <;>
          first
            | (rw [show parseArraySuffixes t (Token.lbracket :: Token.rbracket :: rest) =
                  parseArraySuffixes (DataType.array t) rest from rfl]
               exact ih rest (by simp at hle; omega) (DataType.array t) (hP t h))
            | simpa [parseArraySuffixes] using h

theorem decOk_array_mono (u : DataType) (h : decOk u = true) :
    decOk (.array u) = true := by simpa [decOk] using h

theorem structsOk_array_mono (u : DataType) (h : structsOk u = true) :
    structsOk (.array u) = true := by simpa [structsOk] using h

theorem nameIn_append_single (n m : String) (l : List String) :
    nameIn n (l ++ [m]) = (nameIn n l || (m == n)) := by
  induction l with
  | nil => simp [nameIn]
  | cons x xs ih => simp [nameIn, ih, Bool.or_assoc]

theorem namesNodup_append_single (l : List String) (name : String)
    (h1 : namesNodup l = true) (h2 : nameIn name l = false) :
    namesNodup (l ++ [name]) = true := by
  induction l with
  | nil => simp [namesNodup, nameIn]
  | cons x xs ih =>
    simp only [namesNodup, Bool.and_eq_true, Bool.not_eq_true'] at h1
    simp only [nameIn, Bool.or_eq_false_iff] at h2
    simp only [List.cons_append, List.append_eq, namesNodup, Bool.and_eq_true,
      Bool.not_eq_true', nameIn_append_single, Bool.or_eq_false_iff]
    refine ⟨⟨h1.1, ?_⟩, ih h1.2 h2.2⟩
    have hx : (x == name) = false := h2.1
    cases hb : name == x with
    | false => rfl
    | true =>
      have hnx : name = x := eq_of_beq hb
      subst hnx
      simp at hx

theorem any_eq_nameIn (acc : List (String × DataType)) (name : String) :
    acc.any (fun p => p.1 == name) = nameIn name (acc.map Prod.fst) := by
  induction acc with
  | nil => rfl
  | cons p ps ih => simp [List.any_cons, nameIn, ih]

theorem decOkFields_append (l : List (String × DataType)) (name : String) (t : DataType)
    (h1 : decOkFields l = true) (ht : decOk t = true) :
    decOkFields (l ++ [(name, t)]) = true := by
  induction l with
  | nil => simpa [decOkFields] using ht
  | cons p ps ih =>
    obtain ⟨m, u⟩ := p
    simp only [decOkFields, Bool.and_eq_true] at h1
    simp only [List.cons_append, decOkFields, Bool.and_eq_true]
    exact ⟨h1.1, ih h1.2⟩

theorem structsOkFields_append (l : List (String × DataType)) (name : String) (t : DataType)
    (h1 : structsOkFields l = true) (ht : structsOk t = true) :
    structsOkFields (l ++ [(name, t)]) = true := by
  induction l with
  | nil => simpa [structsOkFields] using ht
  | cons p ps ih =>
    obtain ⟨m, u⟩ := p
    simp only [structsOkFields, Bool.and_eq_true] at h1
    simp only [List.cons_append, structsOkFields, Bool.and_eq_true]
    exact ⟨h1.1, ih h1.2⟩

/-- Main invariant of the recursive-descent parser: every type it returns has
scale ≤ precision in every nested decimal, and pairwise-distinct field names
in every nested struct. -/
theorem parse_wf_aux : ∀ fuel : Nat,
    (∀ ts t rest, parseType fuel ts = .ok (t, rest) →
      decOk t = true ∧ structsOk t = true)
    ∧ (∀ acc ts fs rest,
        decOkFields acc = true → structsOkFields acc = true →
        namesNodup (acc.map Prod.fst) = true →
        parseStructFields fuel acc ts = .ok (fs, rest) →
        decOkFields fs = true ∧ structsOkFields fs = true ∧
          namesNodup (fs.map Prod.fst) = true) := by
  intro fuel
  induction fuel with
  | zero =>
    constructor
    · intro ts t rest h; exact Except.noConfusion h
    · intro acc ts fs rest _ _ _ h; exact Except.noConfusion h
  | succ n ih =>
    constructor
    · intro ts t rest h
      cases ts with
      | nil => exact Except.noConfusion h
      | cons tok ts' =>
        cases tok with
        | ident w =>
          simp only [parseType] at h
          split at h
          · -- STRUCT
            split at h
            · rename_i r1
              split at h
              · exact Except.noConfusion h
              · rename_i fs r2 heq
                injection h with h
                have hfst : t = (parseArraySuffixes (.struct fs) r2).1 :=
                  congrArg Prod.fst h.symm
                subst hfst
                obtain ⟨hd, hs, hn⟩ := ih.2 [] r1 fs r2 rfl rfl rfl heq
                constructor
                · exact parseArraySuffixes_pres decOk decOk_array_mono r2.length r2 le_rfl
                    _ (by simpa [decOk] using hd)
                · exact parseArraySuffixes_pres structsOk structsOk_array_mono r2.length r2
                    le_rfl _ (by simp [structsOk, hn, hs])
            · exact Except.noConfusion h
          · -- not STRUCT
            split at h
            · -- MAP
              split at h
              · rename_i r1
                split at h
                · exact Except.noConfusion h
                · rename_i k r2 hk
                  split at h
                  · rename_i r3
                    split at h
                    · exact Except.noConfusion h
                    · rename_i v r4 hv
                      split at h
                      · rename_i r5
                        injection h with h
                        have hfst : t = (parseArraySuffixes (.map k v) r5).1 :=
                          congrArg Prod.fst h.symm
                        subst hfst
                        obtain ⟨hkd, hks⟩ := ih.1 r1 k _ hk
                        obtain ⟨hvd, hvs⟩ := ih.1 r3 v _ hv
                        constructor
                        · exact parseArraySuffixes_pres decOk decOk_array_mono r5.length r5
                            le_rfl _ (by simp [decOk, hkd, hvd])
                        · exact parseArraySuffixes_pres structsOk structsOk_array_mono
                            r5.length r5 le_rfl _ (by simp [structsOk, hks, hvs])
                      · exact Except.noConfusion h
                  · exact Except.noConfusion h
              · exact Except.noConfusion h
            · -- not MAP
              split at h
              · -- DECIMAL / NUMERIC
                split at h
                · rename_i r1
                  split at h
                  · exact Except.noConfusion h
                  · rename_i d r2 hd
                    injection h with h
                    have hfst : t = (parseArraySuffixes d r2).1 := congrArg Prod.fst h.symm
                    subst hfst
                    obtain ⟨hdd, hds⟩ := parseDecimalParams_wf r1 d r2 hd
                    constructor
                    · exact parseArraySuffixes_pres decOk decOk_array_mono r2.length r2
                        le_rfl _ hdd
                    · exact parseArraySuffixes_pres structsOk structsOk_array_mono r2.length
                        r2 le_rfl _ hds
                · injection h with h
                  have hfst : t = (parseArraySuffixes (.decimal 18 3) ts').1 :=
                    congrArg Prod.fst h.symm
                  subst hfst
                  constructor
                  · exact parseArraySuffixes_pres decOk decOk_array_mono ts'.length ts'
                      le_rfl _ rfl
                  · exact parseArraySuffixes_pres structsOk structsOk_array_mono ts'.length
                      ts' le_rfl _ rfl
              · -- alias resolution
                split at h
                · rename_i t0 ha
                  injection h with h
                  have hfst : t = (parseArraySuffixes t0 ts').1 := congrArg Prod.fst h.symm
                  subst hfst
                  obtain ⟨hd0, hs0⟩ := resolveAlias_wf _ t0 ha
                  constructor
                  · exact parseArraySuffixes_pres decOk decOk_array_mono ts'.length ts'
                      le_rfl _ hd0
                  · exact parseArraySuffixes_pres structsOk structsOk_array_mono ts'.length
                      ts' le_rfl _ hs0
                · exact Except.noConfusion h
        | number s => exact Except.noConfusion h
        | lparen => exact Except.noConfusion h
        | rparen => exact Except.noConfusion h
        | comma => exact Except.noConfusion h
        | lbracket => exact Except.noConfusion h
        | rbracket => exact Except.noConfusion h
    · intro acc ts fs rest hda hsa hna h
      cases ts with
      | nil => exact Except.noConfusion h
      | cons tok ts' =>
        cases tok with
        | ident name =>
          simp only [parseStructFields] at h
          split at h
          · exact Except.noConfusion h
          · rename_i t ts3 ht
            split at h
            · exact Except.noConfusion h
            · rename_i hdup
              obtain ⟨htd, hts⟩ := ih.1 ts' t ts3 ht
              have hnin : nameIn name (acc.map Prod.fst) = false := by
                rw [← any_eq_nameIn]
                exact Bool.eq_false_iff.mpr hdup
              have hda' : decOkFields (acc ++ [(name, t)]) = true :=
                decOkFields_append acc name t hda htd
              have hsa' : structsOkFields (acc ++ [(name, t)]) = true :=
                structsOkFields_append acc name t hsa hts
              have hna' : namesNodup ((acc ++ [(name, t)]).map Prod.fst) = true := by
                rw [List.map_append]
                exact namesNodup_append_single _ name hna hnin
              split at h
              · exact ih.2 _ _ fs rest hda' hsa' hna' h
              · injection h with h
                have h1 : fs = acc ++ [(name, t)] := (congrArg Prod.fst h.symm)
                subst h1
                exact ⟨hda', hsa', hna'⟩
              · exact Except.noConfusion h
        | number s => exact Except.noConfusion h
        | lparen => exact Except.noConfusion h
        | rparen => exact Except.noConfusion h
        | comma => exact Except.noConfusion h
        | lbracket => exact Except.noConfusion h
        | rbracket => exact Except.noConfusion h

/-- A successful parse always returns a well-formed type: decimals respect
scale ≤ precision and structs have pairwise-distinct field names. -/
theorem parse_ok_wf (s : String) (t : DataType) (h : parse s = .ok t) :
    decOk t = true ∧ structsOk t = true := by
  unfold parse parseChars at h
  split at h
  · exact Except.noConfusion h
  · rename_i toks heq
    unfold parseTokens at h
    split at h
    · exact Except.noConfusion h
    · rename_i t' hpt
      injection h with h
      subst h
      exact (parse_wf_aux _).1 toks t' [] hpt
    · exact Except.noConfusion h

/-- C1: every alias keyword of the §4.2 table parses to exactly the
documented canonical scalar type, so all synonyms of one family return equal
results (e.g. BIGINT, INT8 and LONG all give Int64 and FLOAT gives Float32). -/
theorem claim1_alias_table :
    parse "BIGINT" = .ok .int64 ∧ parse "INT8" = .ok .int64 ∧ parse "LONG" = .ok .int64
    ∧ parse "INTEGER" = .ok .int32 ∧ parse "INT4" = .ok .int32 ∧ parse "INT" = .ok .int32
    ∧ parse "SIGNED" = .ok .int32
    ∧ parse "SMALLINT" = .ok .int16 ∧ parse "INT2" = .ok .int16 ∧ parse "SHORT" = .ok .int16
    ∧ parse "TINYINT" = .ok .int8 ∧ parse "INT1" = .ok .int8
    ∧ parse "UBIGINT" = .ok .uint64 ∧ parse "UINTEGER" = .ok .uint32
    ∧ parse "USMALLINT" = .ok .uint16 ∧ parse "UTINYINT" = .ok .uint8
    ∧ parse "BOOLEAN" = .ok .boolean ∧ parse "BOOL" = .ok .boolean
    ∧ parse "LOGICAL" = .ok .boolean
    ∧ parse "BLOB" = .ok .binary ∧ parse "BYTEA" = .ok .binary
    ∧ parse "BINARY" = .ok .binary ∧ parse "VARBINARY" = .ok .binary
    ∧ parse "DATE" = .ok .date
    ∧ parse "DOUBLE" = .ok .float64 ∧ parse "FLOAT8" = .ok .float64
    ∧ parse "REAL" = .ok .float32 ∧ parse "FLOAT4" = .ok .float32
    ∧ parse "FLOAT" = .ok .float32
    ∧ parse "TIME" = .ok .time
    ∧ parse "INTERVAL" = .ok .interval
    ∧ parse "UUID" = .ok .uuid
    ∧ parse "VARCHAR" = .ok .string ∧ parse "CHAR" = .ok .string
    ∧ parse "BPCHAR" = .ok .string ∧ parse "TEXT" = .ok .string
    ∧ parse "STRING" = .ok .string
    ∧ parse "JSON" = .ok .json :=
  ⟨rfl, rfl, rfl, rfl, rfl, rfl, rfl, rfl, rfl, rfl, rfl, rfl, rfl, rfl, rfl, rfl,
   rfl, rfl, rfl, rfl, rfl, rfl, rfl, rfl, rfl, rfl, rfl, rfl, rfl, rfl, rfl, rfl,
   rfl, rfl, rfl, rfl, rfl, rfl⟩

/-- C2: the nested-struct example parses to the struct with the ordered fields
a:Int32, b:String, c:Array(Map(String, Array(Float64))); struct equality is
order-sensitive. -/
theorem claim2_struct_fields :
    parse "STRUCT(a INT, b TEXT, c MAP(TEXT, FLOAT8[])[])" =
      .ok (.struct [("a", .int32), ("b", .string),
        ("c", .array (.map .string (.array .float64)))])
    ∧ DataType.struct [("a", .int32), ("b", .string)] ≠
        DataType.struct [("b", .string), ("a", .int32)] :=
  ⟨rfl, by simp⟩

/-- C3: each bracket-pair suffix wraps the previously built type in one Array
constructor, left to right, so the later suffix becomes the outer array. -/
theorem claim3_array_suffixes :
    parse "INTEGER[]" = .ok (.array .int32)
    ∧ parse "INTEGER[][]" = .ok (.array (.array .int32))
    ∧ (∀ (t : DataType) (rest : List Token),
        parseArraySuffixes t (.lbracket :: .rbracket :: rest) =
          parseArraySuffixes (.array t) rest) :=
  ⟨rfl, rfl, fun _ _ => rfl⟩

/-- C4: unparameterized DECIMAL and NUMERIC parse to the default Decimal(18, 3)
and the parameterized form overrides the default. -/
theorem claim4_decimal_default :
    parse "DECIMAL" = .ok (.decimal 18 3)
    ∧ parse "NUMERIC" = .ok (.decimal 18 3)
    ∧ parse "DECIMAL(10, 3)" = .ok (.decimal 10 3) :=
  ⟨rfl, rfl, rfl⟩

/-- C5: every keyword of the timestamp family parses to a Timestamp carrying
the fixed UTC timezone marker, with scale None / 0 / 3 / 6 / 9 according to
the unit suffix. -/
theorem claim5_timestamp_family :
    parse "TIMESTAMP" = .ok (.timestamp (some "UTC") none)
    ∧ parse "DATETIME" = .ok (.timestamp (some "UTC") none)
    ∧ parse "TIMESTAMP_TZ" = .ok (.timestamp (some "UTC") none)
    ∧ parse "TIMESTAMP_SEC" = .ok (.timestamp (some "UTC") (some 0))
    ∧ parse "TIMESTAMP_S" = .ok (.timestamp (some "UTC") (some 0))
    ∧ parse "TIMESTAMP_MS" = .ok (.timestamp (some "UTC") (some 3))
    ∧ parse "TIMESTAMP_US" = .ok (.timestamp (some "UTC") (some 6))
    ∧ parse "TIMESTAMP_NS" = .ok (.timestamp (some "UTC") (some 9)) :=
  ⟨rfl, rfl, rfl, rfl, rfl, rfl, rfl, rfl⟩

/-- C7: each documented class of malformed input yields its documented error
kind — unknown identifier, grammar violation, trailing tokens — and in
general a complete type production followed by unconsumed tokens is a
TrailingInputError; an error is never returned together with a type. -/
theorem claim7_error_kinds :
    parse "FOO" = .error .unknownTypeError
    ∧ parse "STRUCT(a INT" = .error .unexpectedTokenError
    ∧ parse "INT garbage" = .error .trailingInputError
    ∧ (∀ (toks : List Token) (t : DataType) (rest : List Token),
        parseType (toks.length + 1) toks = .ok (t, rest) → rest ≠ [] →
        parseTokens toks = .error .trailingInputError)
    ∧ (∀ (s : String) (t : DataType) (e : ParseError),
        ¬(parse s = .ok t ∧ parse s = .error e)) := by
  refine ⟨rfl, rfl, rfl, ?_, ?_⟩
  · intro toks t rest h hne
    unfold parseTokens
    rw [h]
    cases rest with
    | nil => exact absurd rfl hne
    | cons a l => rfl
  · rintro s t e ⟨h1, h2⟩
    rw [h1] at h2
    exact Except.noConfusion h2

/-- Closed instance of C7: the trailing-input rule applied to the token
stream of "INT garbage". -/
theorem claim7_error_kinds_app :
    parseTokens [Token.ident "INT", Token.ident "garbage"] = .error .trailingInputError :=
  claim7_error_kinds.2.2.2.1 [Token.ident "INT", Token.ident "garbage"] .int32
    [Token.ident "garbage"] rfl (by simp)

/-- C10: keyword dispatch is case-insensitive — the parser's behaviour on an
identifier token depends only on its uppercased text, so any case variant of
an input parses like the uppercase form. -/
theorem claim10_case_insensitive :
    (∀ (fuel : Nat) (w₁ w₂ : String) (rest : List Token), upper w₁ = upper w₂ →
      parseType fuel (.ident w₁ :: rest) = parseType fuel (.ident w₂ :: rest))
    ∧ parse "bigint" = parse "BIGINT"
    ∧ parse "Struct(a int)" = parse "STRUCT(a INT)"
    ∧ parse "mAp(sTrInG, bIgInT)" = parse "MAP(STRING, BIGINT)"
    ∧ parse "timestamp_ms" = parse "TIMESTAMP_MS" := by
  refine ⟨?_, rfl, rfl, rfl, rfl⟩
  intro fuel w₁ w₂ rest h
  cases fuel with
  | zero => rfl
  | succ n =>
    simp only [parseType]
    rw [h]

/-- Closed instance of C10: dispatch on "bigint" agrees with dispatch on
"BIGINT". -/
theorem claim10_case_insensitive_app :
    parseType 2 [Token.ident "bigint"] = parseType 2 [Token.ident "BIGINT"] :=
  claim10_case_insensitive.1 2 "bigint" "BIGINT" [] rfl

/-- C6: every Decimal occurring anywhere in a successfully parsed type has
scale ≤ precision, and decimal parameters with precision < scale are rejected
with InvalidDecimalParamsError. -/
theorem claim6_decimal_invariant :
    (∀ (s : String) (t : DataType), parse s = .ok t → decOk t = true)
    ∧ parse "DECIMAL(3, 10)" = .error .invalidDecimalParamsError :=
  ⟨fun s t h => (parse_ok_wf s t h).1, rfl⟩

/-- Closed instance of C6: the decimal invariant evaluated on the parse of
"DECIMAL(10, 3)". -/
theorem claim6_decimal_invariant_app : decOk (.decimal 10 3) = true :=
  claim6_decimal_invariant.1 "DECIMAL(10, 3)" (.decimal 10 3) rfl

/-- C8: a struct declaring the same field name twice fails with
DuplicateFieldError, and consequently field names are unique within every
struct of every successfully parsed type. -/
theorem claim8_duplicate_fields :
    (∀ (s : String) (t : DataType), parse s = .ok t → structsOk t = true)
    ∧ parse "STRUCT(a INT, a TEXT)" = .error .duplicateFieldError :=
  ⟨fun s t h => (parse_ok_wf s t h).2, rfl⟩

/-- Closed instance of C8: field-name uniqueness evaluated on the parse of
"STRUCT(a INT, b TEXT)". -/
theorem claim8_duplicate_fields_app :
    structsOk (.struct [("a", .int32), ("b", .string)]) = true :=
  claim8_duplicate_fields.1 "STRUCT(a INT, b TEXT)"
    (.struct [("a", .int32), ("b", .string)]) rfl

theorem dropWhileLen (p : Char → Bool) (l : List Char) :
    (l.dropWhile p).length ≤ l.length := by
  induction l with
  | nil => simp
  | cons c cs ih =>
    by_cases h : p c
    · rw [List.dropWhile_cons_of_pos h]
      exact le_trans ih (Nat.le_succ _)
    · rw [List.dropWhile_cons_of_neg h]

theorem takeWhile_append_all (p : Char → Bool) :
    ∀ (l zs : List Char), (∀ x ∈ l, p x = true) →
      (l ++ zs).takeWhile p = l ++ zs.takeWhile p := by
  intro l
  induction l with
  | nil => intro zs _; rfl
  | cons c l' ih =>
    intro zs h
    have hc : p c = true := h c (List.mem_cons_self c l')
    rw [List.cons_append, List.takeWhile_cons_of_pos hc,
      ih zs (fun x hx => h x (List.mem_cons_of_mem c hx)), List.cons_append]

theorem dropWhile_append_all (p : Char → Bool) :
    ∀ (l zs : List Char), (∀ x ∈ l, p x = true) →
      (l ++ zs).dropWhile p = zs.dropWhile p := by
  intro l
  induction l with
  | nil => intro zs _; rfl
  | cons c l' ih =>
    intro zs h
    have hc : p c = true := h c (List.mem_cons_self c l')
    rw [List.cons_append, List.dropWhile_cons_of_pos hc,
      ih zs (fun x hx => h x (List.mem_cons_of_mem c hx))]

theorem takeWhile_dropWhile_append_stop (p : Char → Bool) :
    ∀ (l zs : List Char), l.dropWhile p ≠ [] →
      (l ++ zs).takeWhile p = l.takeWhile p ∧
        (l ++ zs).dropWhile p = l.dropWhile p ++ zs := by
  intro l
  induction l with
  | nil => intro zs h; exact absurd rfl h
  | cons c l' ih =>
    intro zs h
    by_cases hc : p c
    · rw [List.dropWhile_cons_of_pos hc] at h
      obtain ⟨h1, h2⟩ := ih zs h
      constructor
      · rw [List.cons_append, List.takeWhile_cons_of_pos hc, h1,
          List.takeWhile_cons_of_pos hc]
      · rw [List.cons_append, List.dropWhile_cons_of_pos hc, h2,
          List.dropWhile_cons_of_pos hc]
    · constructor
      · rw [List.cons_append, List.takeWhile_cons_of_neg hc,
          List.takeWhile_cons_of_neg hc]
      · rw [List.cons_append, List.dropWhile_cons_of_neg hc,
          List.dropWhile_cons_of_neg hc, List.cons_append]

theorem startsWordC_false_take (b : List Char) (h : startsWordC b = false) :
    b.takeWhile isWordChar = [] ∧ b.dropWhile isWordChar = b := by
  cases b with
  | nil => exact ⟨rfl, rfl⟩
  | cons c cs =>
    have hc : isWordChar c = false := h
    exact ⟨List.takeWhile_cons_of_neg (by simp [hc]),
      List.dropWhile_cons_of_neg (by simp [hc])⟩

theorem endsWordC_cons (c : Char) (a : List Char) (h : a ≠ []) :
    endsWordC (c :: a) = endsWordC a := by
  cases a with
  | nil => exact absurd rfl h
  | cons x xs =>
    unfold endsWordC
    rw [List.getLast?_cons_cons]

theorem endsWordC_append (w d : List Char) (h : d ≠ []) :
    endsWordC (w ++ d) = endsWordC d := by
  unfold endsWordC
  rw [List.getLast?_append_of_ne_nil w h]

theorem endsWordC_of_all : ∀ (l : List Char), l ≠ [] →
    (∀ x ∈ l, isWordChar x = true) → endsWordC l = true := by
  intro l
  induction l with
  | nil => intro h _; exact absurd rfl h
  | cons c l' ih =>
    intro _ hall
    cases l' with
    | nil => simpa [endsWordC, List.getLast?] using hall c (List.mem_cons_self c [])
    | cons x xs =>
      rw [endsWordC_cons c (x :: xs) (by simp)]
      exact ih (by simp) (fun y hy => hall y (List.mem_cons_of_mem c hy))

/-- The tokenizer's fuel is irrelevant once it exceeds the input length. -/
theorem tokenize_irrel : ∀ (n : Nat) (cs : List Char) (f g : Nat),
    cs.length ≤ n → cs.length < f → cs.length < g →
    tokenize f cs = tokenize g cs := by
  intro n
  induction n with
  | zero =>
    intro cs f g h1 h2 h3
    have hnil : cs = [] := List.length_eq_zero.mp (Nat.le_zero.mp h1)
    subst hnil
    cases f with
    | zero => omega
    | succ f' =>
      cases g with
      | zero => omega
      | succ g' => rfl
  | succ n ih =>
    intro cs f g h1 h2 h3
    cases cs with
    | nil =>
      cases f with
      | zero => omega
      | succ f' =>
        cases g with
        | zero => omega
        | succ g' => rfl
    | cons c cs' =>
      cases f with
      | zero => simp at h2
      | succ f' =>
        cases g with
        | zero => simp at h3
        | succ g' =>
          have hn : cs'.length ≤ n := by simp at h1; omega
          have hf : cs'.length < f' := by simp at h2; omega
          have hg : cs'.length < g' := by simp at h3; omega
          simp only [tokenize]
          by_cases hc0 : c = ' '
          · simp only [if_pos hc0]
            exact ih cs' f' g' hn hf hg
          · simp only [if_neg hc0]
            by_cases hc1 : c = '('
            · simp only [if_pos hc1]
              rw [ih cs' f' g' hn hf hg]
            · simp only [if_neg hc1]
              by_cases hc2 : c = ')'
              · simp only [if_pos hc2]
                rw [ih cs' f' g' hn hf hg]
              · simp only [if_neg hc2]
                by_cases hc3 : c = ','
                · simp only [if_pos hc3]
                  rw [ih cs' f' g' hn hf hg]
                · simp only [if_neg hc3]
                  by_cases hc4 : c = '['
                  · simp only [if_pos hc4]
                    rw [ih cs' f' g' hn hf hg]
                  · simp only [if_neg hc4]
                    by_cases hc5 : c = ']'
                    · simp only [if_pos hc5]
                      rw [ih cs' f' g' hn hf hg]
                    · simp only [if_neg hc5]
                      by_cases hc6 : isWordChar c = true
                      · simp only [if_pos hc6]
                        rw [ih (cs'.dropWhile isWordChar) f' g'
                          (le_trans (dropWhileLen isWordChar cs') hn)
                          (lt_of_le_of_lt (dropWhileLen isWordChar cs') hf)
                          (lt_of_le_of_lt (dropWhileLen isWordChar cs') hg)]
                      · simp only [if_neg hc6]

theorem insert_cond_tail (c : Char) (a' b : List Char)
    (hcond : endsWordC (c :: a') = false ∨ startsWordC b = false) :
    endsWordC a' = false ∨ startsWordC b = false := by
  rcases hcond with h | h
  · by_cases ha : a' = []
    · subst ha; exact Or.inl rfl
    · exact Or.inl ((endsWordC_cons c a' ha).symm.trans h)
  · exact Or.inr h

/-- Inserting one space at any position that is not strictly inside a word
run leaves the token stream unchanged.  Any two inputs that differ only in
the amount of insignificant inter-token whitespace are connected by a chain
of such insertions. -/
theorem tokenize_insert_space : ∀ (n : Nat) (a b : List Char) (f g : Nat),
    a.length ≤ n →
    (a ++ ' ' :: b).length < f → (a ++ b).length < g →
    (endsWordC a = false ∨ startsWordC b = false) →
    tokenize f (a ++ ' ' :: b) = tokenize g (a ++ b) := by
  intro n
  induction n with
  | zero =>
    intro a b f g h1 h2 h3 _
    have hnil : a = [] := List.length_eq_zero.mp (Nat.le_zero.mp h1)
    subst hnil
    simp only [List.nil_append] at h2 h3 ⊢
    cases f with
    | zero => simp at h2
    | succ f' =>
      simp only [tokenize, if_pos rfl]
      exact tokenize_irrel b.length b f' g le_rfl (by simp at h2; omega) h3
  | succ n ih =>
    intro a b f g h1 h2 h3 hcond
    cases a with
    | nil =>
      simp only [List.nil_append] at h2 h3 ⊢
      cases f with
      | zero => simp at h2
      | succ f' =>
        simp only [tokenize, if_pos rfl]
        exact tokenize_irrel b.length b f' g le_rfl (by simp at h2; omega) h3
    | cons c a' =>
      cases f with
      | zero => simp at h2
      | succ f' =>
        cases g with
        | zero => simp at h3
        | succ g' =>
          have hn : a'.length ≤ n := by simp at h1; omega
          have L2 : a'.length + b.length + 2 < f' + 1 := by
            simp [List.length_append] at h2; omega
          have L3 : a'.length + b.length + 1 < g' + 1 := by
            simp [List.length_append] at h3; omega
          simp only [List.cons_append]
          simp only [tokenize]
          by_cases hc0 : c = ' '
          · simp only [if_pos hc0]
            exact ih a' b f' g' hn (by simp [List.length_append]; omega)
              (by simp [List.length_append]; omega)
              (insert_cond_tail c a' b hcond)
          · simp only [if_neg hc0]
            by_cases hc1 : c = '('
            · simp only [if_pos hc1]
              rw [ih a' b f' g' hn (by simp [List.length_append]; omega)
                (by simp [List.length_append]; omega) (insert_cond_tail c a' b hcond)]
            · simp only [if_neg hc1]
              by_cases hc2 : c = ')'
              · simp only [if_pos hc2]
                rw [ih a' b f' g' hn (by simp [List.length_append]; omega)
                  (by simp [List.length_append]; omega) (insert_cond_tail c a' b hcond)]
              · simp only [if_neg hc2]
                by_cases hc3 : c = ','
                · simp only [if_pos hc3]
                  rw [ih a' b f' g' hn (by simp [List.length_append]; omega)
                    (by simp [List.length_append]; omega) (insert_cond_tail c a' b hcond)]
                · simp only [if_neg hc3]
                  by_cases hc4 : c = '['
                  · simp only [if_pos hc4]
                    rw [ih a' b f' g' hn (by simp [List.length_append]; omega)
                      (by simp [List.length_append]; omega) (insert_cond_tail c a' b hcond)]
                  · simp only [if_neg hc4]
                    by_cases hc5 : c = ']'
                    · simp only [if_pos hc5]
                      rw [ih a' b f' g' hn (by simp [List.length_append]; omega)
                        (by simp [List.length_append]; omega)
                        (insert_cond_tail c a' b hcond)]
                    · simp only [if_neg hc5]
                      by_cases hc6 : isWordChar c = true
                      · simp only [if_pos hc6]
                        have hdl : (a'.dropWhile isWordChar).length ≤ a'.length :=
                          dropWhileLen _ _
                        rcases hd : a'.dropWhile isWordChar with _ | ⟨dc, d'⟩
                        · -- the word run covers all of a'
                          have hall : ∀ x ∈ a', isWordChar x = true :=
                            List.dropWhile_eq_nil_iff.mp hd
                          have hsw : startsWordC b = false := by
                            rcases hcond with h | h
                            · exfalso
                              have hall' : ∀ x ∈ c :: a', isWordChar x = true := by
                                intro x hx
                                rcases List.mem_cons.mp hx with hx' | hx'
                                · subst hx'; exact hc6
                                · exact hall x hx'
                              have htrue := endsWordC_of_all (c :: a') (by simp) hall'
                              rw [htrue] at h
                              exact Bool.noConfusion h
                            · exact h
                          obtain ⟨htb, hdb⟩ := startsWordC_false_take b hsw
                          rw [takeWhile_append_all isWordChar a' (' ' :: b) hall,
                            dropWhile_append_all isWordChar a' (' ' :: b) hall,
                            List.takeWhile_cons_of_neg (by decide),
                            List.dropWhile_cons_of_neg (by decide),
                            takeWhile_append_all isWordChar a' b hall,
                            dropWhile_append_all isWordChar a' b hall,
                            htb, hdb, List.append_nil]
                          have hrec : tokenize f' (' ' :: b) = tokenize g' b := by
                            cases f' with
                            | zero => omega
                            | succ f'' =>
                              simp only [tokenize, if_pos rfl]
                              exact tokenize_irrel b.length b f'' g' le_rfl (by omega)
                                (by omega)
                          rw [hrec]
                        · -- the word run stops inside a'
                          have hdne : a'.dropWhile isWordChar ≠ [] := by
                            rw [hd]; simp
                          obtain ⟨ht1, hd1⟩ :=
                            takeWhile_dropWhile_append_stop isWordChar a' (' ' :: b) hdne
                          obtain ⟨ht2, hd2⟩ :=
                            takeWhile_dropWhile_append_stop isWordChar a' b hdne
                          rw [ht1, hd1, ht2, hd2]
                          have hcond' : endsWordC (a'.dropWhile isWordChar) = false ∨
                              startsWordC b = false := by
                            rcases insert_cond_tail c a' b hcond with h | h
                            · left
                              have hsame : endsWordC (a'.dropWhile isWordChar) =
                                  endsWordC a' :=
                                (endsWordC_append (a'.takeWhile isWordChar)
                                  (a'.dropWhile isWordChar) hdne).symm.trans
                                  (congrArg endsWordC
                                    (List.takeWhile_append_dropWhile isWordChar a'))
                              exact hsame.trans h
                            · right; exact h
                          rw [ih (a'.dropWhile isWordChar) b f' g' (le_trans hdl hn)
                            (by simp [List.length_append]; omega)
                            (by simp [List.length_append]; omega) hcond']
                      · simp only [if_neg hc6]
/-- C9: parsing is insensitive to the amount of insignificant whitespace
between tokens — inserting a space anywhere except strictly inside a word
run leaves the parse unchanged, and in particular the two spacings of the
MAP example parse equally.  (Any two inputs differing only in the amount of
inter-token whitespace are connected by a chain of such insertions.) -/
theorem claim9_whitespace :
    (∀ (a b : List Char), endsWordC a = false ∨ startsWordC b = false →
      parseChars (a ++ ' ' :: b) = parseChars (a ++ b))
    ∧ parse "MAP(STRING,BIGINT)" = parse "MAP( STRING , BIGINT )" := by
  constructor
  · intro a b hcond
    have ht : tokenizeAll (a ++ ' ' :: b) = tokenizeAll (a ++ b) := by
      unfold tokenizeAll
      exact tokenize_insert_space a.length a b _ _ le_rfl (Nat.lt_succ_self _)
        (Nat.lt_succ_self _) hcond
    unfold parseChars
    rw [ht]
  · rfl

/-- Closed instance of C9: inserting a space after the opening parenthesis
of the MAP example does not change the parse. -/
theorem claim9_whitespace_app :
    parseChars ("MAP(".data ++ ' ' :: "STRING,BIGINT)".data) =
      parseChars ("MAP(".data ++ "STRING,BIGINT)".data) :=
  claim9_whitespace.1 "MAP(".data "STRING,BIGINT)".data (Or.inl rfl)

example : parse "BIGINT" = .ok .int64 := rfl
example : DataType.struct [("a", .int32), ("b", .string)] ≠
    DataType.struct [("b", .string), ("a", .int32)] := by simp
example : parse "INTEGER[][]" = .ok (.array (.array .int32)) := rfl
example : parse "MAP(STRING, BIGINT)" = .ok (.map .string .int64) := rfl
example : parse "STRUCT(a INT, b TEXT, c MAP(TEXT, FLOAT8[])[])" =
    .ok (.struct [("a", .int32), ("b", .string),
      ("c", .array (.map .string (.array .float64)))]) := rfl
example : parse "DECIMAL(3, 10)" = .error .invalidDecimalParamsError := rfl
example : parse "FOO" = .error .unknownTypeError := rfl
example : parse "STRUCT(a INT" = .error .unexpectedTokenError := rfl
example : parse "INT garbage" = .error .trailingInputError := rfl
example : parse "bigint" = .ok .int64 := rfl
example : parse "Struct(a int)" = parse "STRUCT(a INT)" := rfl
example : parse "TIMESTAMP_MS" = .ok (.timestamp (some "UTC") (some 3)) := rfl

end DuckDBTypes
